import Mathlib

/-!
Verification of the AArch64 EL2 virtualization core (exit dispatcher, vCPU
store, context switch, and virtual interrupt controller).

The Rust sources are shallowly embedded: machine integers (`u64`, `usize`,
`u32`) are `Nat` with an explicit `% 2 ^ 64` at the one place where a `u64`
addition can wrap; fallible operations (array indexing that can go out of
bounds in the source) return `Option`, with `none` standing for the aborted
execution.  Hardware registers read or written through inline assembly are
carried as explicit state.
-/

namespace KernelVirt

/-! ## Exit dispatcher (`exit.rs`) -/

/-- Mirrors `VmExitReason` in `exit.rs`. -/
inductive VmExitReason where
  | Hvc
  | Svc
  | DataAbortLowerEL
  | InstructionAbortLowerEL
  | TrappedWfiWfe
  | Unknown (ec : Nat)
  deriving DecidableEq, Repr

/-- The `match ec` body of `parse_exit_reason` in `exit.rs`. -/
def classify_ec (ec : Nat) : VmExitReason :=
  match ec with
  | 0x16 => .Hvc
  | 0x15 => .Svc
  | 0x24 => .DataAbortLowerEL
  | 0x20 => .InstructionAbortLowerEL
  | 0x01 => .TrappedWfiWfe
  | ec => .Unknown ec

/-- Mirrors `parse_exit_reason` in `exit.rs`: the exception class is
bits [31:26] of the syndrome, i.e. `(esr >> 26) & 0x3F`, matched by
`classify_ec`. -/
def parse_exit_reason (esr : Nat) : VmExitReason :=
  classify_ec ((esr >>> 26) &&& 0x3F)

/-- Mirrors `VcpuStateStruct` in `vcpu.rs`: 31 general registers plus the
saved exception-return address, stack pointer, PSTATE snapshot, saved SPSR
and the guest vector-base shadow. -/
structure VcpuStateStruct where
  regs : Fin 31 → Nat
  elr_el2 : Nat
  sp : Nat
  pstate : Nat
  spsr : Nat
  vbar_el1 : Nat

/-- Mirrors `VcpuStateStruct::new` (all fields zero, from `Default`). -/
def VcpuStateStruct.new : VcpuStateStruct :=
  { regs := fun _ => 0, elr_el2 := 0, sp := 0, pstate := 0, spsr := 0, vbar_el1 := 0 }

/-- Mirrors `VmExitInfo` in `exit.rs`. -/
structure VmExitInfo where
  reason : VmExitReason
  esr : Nat
  far : Nat
  pstate : Nat
  return_addr : Nat

/-- The `VmExitInfo` value built by `handle_vm_exit`:
`return_addr = far + 4` as `usize` arithmetic (wraps at `2 ^ 64`). -/
def mkVmExitInfo (esr far pstate : Nat) : VmExitInfo :=
  { reason := parse_exit_reason esr, esr := esr, far := far, pstate := pstate,
    return_addr := (far + 4) % 2 ^ 64 }

/-- Mirrors `handle_svc` in `exit.rs`: dispatches on register 0 of the saved
context, then sets the saved exception-return address to `info.return_addr`
(a `usize` stored into a `u64`, an exact cast). -/
def handle_svc (ctx : VcpuStateStruct) (info : VmExitInfo) : VcpuStateStruct × Bool :=
  let svc_num := ctx.regs 0
  let ctx1 :=
    match svc_num with
    | 0 => { ctx with regs := Function.update ctx.regs 0 0 }
    | 1 => { ctx with regs := Function.update ctx.regs 0 1 }
    | _ => { ctx with regs := Function.update ctx.regs 0 0xFFFFFFFF }
  ({ ctx1 with elr_el2 := info.return_addr }, true)

/-! ## Virtual interrupt controller (`vgic.rs`) -/

/-- Mirrors `Vgic` in `vgic.rs`: a bounded circular buffer (capacity
`MAX_PENDING = 64`) of pending virtual interrupt identifiers. -/
structure Vgic where
  pending_irqs : Fin 64 → Nat
  pending_count : Nat
  pending_head : Nat
  pending_tail : Nat

/-- Mirrors `Vgic::new`. -/
def Vgic.new : Vgic :=
  { pending_irqs := fun _ => 0, pending_count := 0, pending_head := 0, pending_tail := 0 }

/-- The global vGIC state: the four per-core queues (`VGIC_CPU_STATES`,
`MAX_VCPUS = 4`) together with the four hardware list registers
(`MAX_LR = 4`) written through `write_lr`. -/
structure GicState where
  vgics : Fin 4 → Vgic
  lrs : Fin 4 → Nat

/-- The body of `inject` in `vgic.rs` acting on one queue: a full queue
drops the identifier; otherwise the identifier is stored at the tail, the
tail advances by 1 mod 64 and the count increases by 1.  `none` models the
aborted execution when the stored tail index is out of bounds (the source
indexes `pending_irqs[pending_tail]` without a check). -/
def injectQ (v : Vgic) (intid : Nat) : Option Vgic :=
  if 64 ≤ v.pending_count then some v
  else if ht : v.pending_tail < 64 then
    some { v with pending_irqs := Function.update v.pending_irqs ⟨v.pending_tail, ht⟩ intid,
                  pending_tail := (v.pending_tail + 1) % 64,
                  pending_count := v.pending_count + 1 }
  else none

/-- Mirrors `inject` in `vgic.rs`: out-of-range core identifiers return with
no effect; otherwise the per-core queue is updated by `injectQ`. -/
def inject (g : GicState) (vcpu_id : Nat) (intid : Nat) : Option GicState :=
  if h : vcpu_id < 4 then
    (injectQ (g.vgics ⟨vcpu_id, h⟩) intid).map fun v =>
      { g with vgics := Function.update g.vgics ⟨vcpu_id, h⟩ v }
  else some g

/-- The state field of a list-register value: bits [63:62]
(`(lr >> 62) & 0x3` in `vgic.rs`). -/
def lrState (lr : Nat) : Nat := (lr >>> 62) &&& 0x3

/-- Modelled from the spec: the hardware empty-status bitmap (read as
`ICH_ELRSR_EL2` in `vgic.rs`, which is not itself repository code) reports a
list register as free exactly when it holds no valid interrupt, i.e. its
state bits are zero.  `lrFree lrs i` is bit `i` of that bitmap. -/
def lrFree (lrs : Fin 4 → Nat) (i : Fin 4) : Bool := lrState (lrs i) = 0

/-- The force-clear pass of `flush`: any list register reported non-empty
whose state is Active (2) is cleared to 0. -/
def force_clear (lrs : Fin 4 → Nat) : Fin 4 → Nat :=
  fun i => if lrFree lrs i = false ∧ lrState (lrs i) = 2 then 0 else lrs i

/-- List-register value written by `flush`:
`(1 << 62) | (1 << 60) | intid` — Pending state plus Group 1. -/
def lrPendingGroup1 (intid : Nat) : Nat := 2 ^ 62 ||| 2 ^ 60 ||| intid

/-- The loop state of the fill phase of `flush`: the queue, the list
registers, and the local `free_mask` (its four relevant bits). -/
structure FlushSt where
  vgic : Vgic
  lrs : Fin 4 → Nat
  free_mask : Fin 4 → Bool

/-- Reading `pending_irqs[i]`; indices produced by `flush` are maintained
mod 64, so the access is written with the reduction made explicit. -/
def irqAt (v : Vgic) (i : Nat) : Nat :=
  v.pending_irqs ⟨i % 64, Nat.mod_lt _ (by omega)⟩

/-- One iteration of the fill loop of `flush` at list-register index `i`:
if the slot is free and entries are pending, dequeue the head identifier
(head advances by 1 mod 64, count decreases by 1) and write it to the slot
tagged Pending/Group-1, clearing the slot's bit in the local mask. -/
def flush_step (st : FlushSt) (i : Fin 4) : FlushSt :=
  if st.free_mask i = true ∧ 0 < st.vgic.pending_count then
    let intid := irqAt st.vgic st.vgic.pending_head
    { vgic := { st.vgic with
                  pending_head := (st.vgic.pending_head + 1) % 64,
                  pending_count := st.vgic.pending_count - 1 },
      lrs := Function.update st.lrs i (lrPendingGroup1 intid),
      free_mask := Function.update st.free_mask i false }
  else st

/-- The fill loop of `flush`, iterated over list-register indices. -/
def flush_loop (st : FlushSt) (is : List (Fin 4)) : FlushSt :=
  is.foldl flush_step st

/-- Mirrors `flush` in `vgic.rs`: out-of-range core identifiers return with
no effect; otherwise the queue indices are sanity-checked (resetting the
queue on corruption), Active list registers are force-cleared, the
empty-status bitmap is re-read, and free slots are filled from the pending
queue in FIFO order. -/
def flush (g : GicState) (vcpu_id : Nat) : GicState :=
  if h : vcpu_id < 4 then
    let v0 := g.vgics ⟨vcpu_id, h⟩
    let v1 := if 64 ≤ v0.pending_head ∨ 64 ≤ v0.pending_tail then
        { v0 with pending_head := 0, pending_tail := 0, pending_count := 0 }
      else v0
    let lrs1 := force_clear g.lrs
    let st := flush_loop { vgic := v1, lrs := lrs1, free_mask := lrFree lrs1 } [0, 1, 2, 3]
    { vgics := Function.update g.vgics ⟨vcpu_id, h⟩ st.vgic, lrs := st.lrs }
  else g

/-- Mirrors `inject_fiq` in `vgic.rs`: its body is empty (a stub commented
`// ...`), so it ignores its argument and changes nothing. -/
def inject_fiq (g : GicState) (_intid : Nat) : GicState := g

/-! ## Hypervisor-call handler (`exit.rs`, continued) -/

/-- The state handled by `handle_hvc`: the current virtual core's saved
context, the global vGIC state, the identity of the current virtual core
(`VCPU_MANAGER`, used by `inject_irq`), and the hardware `VBAR_EL1`
register written by hypervisor call 3. -/
structure HypState where
  ctx : VcpuStateStruct
  gic : GicState
  current_vcpu : Option Nat
  vbar_el1_hw : Nat

/-- Mirrors `inject_irq` in `vgic.rs`: injects into the current virtual
core's queue, if there is one. -/
def inject_irq (s : HypState) (intid : Nat) : Option GicState :=
  match s.current_vcpu with
  | some id => inject s.gic id intid
  | none => some s.gic

/-- Mirrors `handle_hvc` in `exit.rs`.  The call number is the low 16 bits
of the syndrome.  Call 2 returns the terminate verdict before the common
tail; every other call runs the common tail, which restores the caller's
register 0 (unless the call was 1) and advances the saved exception-return
address by 4 (`u64` addition, wraps at `2 ^ 64`), returning the resume
verdict.  `none` models an aborted execution inside `inject` (unreachable
from well-formed queues). -/
def handle_hvc (s : HypState) (esr : Nat) : Option (HypState × Bool) :=
  let saved_x0 := s.ctx.regs 0
  let hvc_num := esr &&& 0xFFFF
  if hvc_num = 2 then
    -- HVC#2: shutdown request, returns "terminate" immediately
    some (s, false)
  else
    let s1? : Option HypState :=
      match hvc_num with
      | 0 => some s          -- HVC#0: diagnostic echo, log only
      | 1 => some { s with   -- HVC#1: fixed hypervisor identifier in register 0
          ctx := { s.ctx with regs := Function.update s.ctx.regs 0 0x48495001 } }
      | 3 =>                 -- HVC#3: force VBAR_EL1 and inject IRQ 32
        let s3 := { s with vbar_el1_hw := 0x48000800,
                           ctx := { s.ctx with vbar_el1 := 0x48000800 } }
        (inject_irq s3 32).map fun gic => { s3 with gic := gic }
      | 4 => some { s with gic := inject_fiq s.gic 33 }  -- HVC#4: inject FIQ 33
      | 5 => some s          -- HVC#5: no-op probe
      | _ => some s          -- unknown numbers are logged and ignored
    s1?.map fun s1 =>
      let s2 := if hvc_num ≠ 1 then
          { s1 with ctx := { s1.ctx with regs := Function.update s1.ctx.regs 0 saved_x0 } }
        else s1
      ({ s2 with ctx := { s2.ctx with elr_el2 := (s2.ctx.elr_el2 + 4) % 2 ^ 64 } }, true)

/-- C1 counterexample: the claim asserts that syndrome 0x56000000 classifies
as HypervisorCall, but its exception class is bits [31:26] = 0x15, so the
code classifies it as SupervisorCall.  (The repository's own unit test
asserts the same wrong expectation; a hypervisor-call syndrome has class
0x16, e.g. 0x58000000.) -/
theorem c1_exit_classification_counterexample :
    parse_exit_reason 0x56000000 = .Svc ∧ parse_exit_reason 0x56000000 ≠ .Hvc := by
  decide

/-- C1 (amended): exit classification is a pure total function of bits
[31:26] of the syndrome: class 0x16 maps to HypervisorCall, 0x15 to
SupervisorCall, 0x24 to DataAbortFromGuest, 0x20 to
InstructionAbortFromGuest, 0x01 to TrappedWaitForEvent, and every other
class to Unknown; in particular syndrome 0x58000000 (class 0x16) classifies
as HypervisorCall and 0x55000000 as SupervisorCall. -/
theorem c1_exit_classification :
    (∀ esr : Nat, (esr >>> 26) &&& 0x3F = 0x16 → parse_exit_reason esr = .Hvc) ∧
    (∀ esr : Nat, (esr >>> 26) &&& 0x3F = 0x15 → parse_exit_reason esr = .Svc) ∧
    (∀ esr : Nat, (esr >>> 26) &&& 0x3F = 0x24 → parse_exit_reason esr = .DataAbortLowerEL) ∧
    (∀ esr : Nat, (esr >>> 26) &&& 0x3F = 0x20 → parse_exit_reason esr = .InstructionAbortLowerEL) ∧
    (∀ esr : Nat, (esr >>> 26) &&& 0x3F = 0x01 → parse_exit_reason esr = .TrappedWfiWfe) ∧
    (∀ esr : Nat, ((esr >>> 26) &&& 0x3F) ∉ ([0x16, 0x15, 0x24, 0x20, 0x01] : List Nat) →
      parse_exit_reason esr = .Unknown ((esr >>> 26) &&& 0x3F)) ∧
    parse_exit_reason 0x58000000 = .Hvc ∧
    parse_exit_reason 0x55000000 = .Svc := by
  have key : ∀ x, x < 64 → x ∉ ([0x16, 0x15, 0x24, 0x20, 0x01] : List Nat) →
      classify_ec x = .Unknown x := by decide
  refine ⟨?_, ?_, ?_, ?_, ?_, ?_, by decide, by decide⟩ <;>
    intro esr h <;> unfold parse_exit_reason
  · rw [h]; decide
  · rw [h]; decide
  · rw [h]; decide
  · rw [h]; decide
  · rw [h]; decide
  · have hlt : (esr >>> 26) &&& 0x3F < 64 := by
      have h63 : (63 : Nat) = 2 ^ 6 - 1 := by norm_num
      rw [show (0x3F : Nat) = 63 from rfl, h63, Nat.and_pow_two_sub_one_eq_mod]
      exact Nat.mod_lt _ (by norm_num)
    exact key _ hlt h

/-- C1 witness: the classification evaluated at concrete syndromes through
the theorem itself. -/
theorem c1_exit_classification_witness :
    parse_exit_reason 0x58000000 = .Hvc ∧ parse_exit_reason 0x08000000 = .Unknown 2 :=
  ⟨c1_exit_classification.1 0x58000000 (by decide),
   c1_exit_classification.2.2.2.2.2.1 0x08000000 (by decide)⟩

/-- C6: the supervisor-call handler dispatches on register 0 of the saved
context (0 sets it to 0, 1 sets it to 1, anything else to 0xFFFFFFFF), sets
the saved exception-return address to `far + 4` (independent of the prior
return address), and returns the resume verdict. -/
theorem c6_svc_contract (ctx : VcpuStateStruct) (esr far pstate : Nat)
    (hfar : far + 4 < 2 ^ 64) :
    let r := handle_svc ctx (mkVmExitInfo esr far pstate)
    r.2 = true ∧
    r.1.elr_el2 = far + 4 ∧
    (ctx.regs 0 = 0 → r.1.regs 0 = 0) ∧
    (ctx.regs 0 = 1 → r.1.regs 0 = 1) ∧
    (ctx.regs 0 ≠ 0 → ctx.regs 0 ≠ 1 → r.1.regs 0 = 0xFFFFFFFF) := by
  have hfar2 : far + 4 < 18446744073709551616 := by norm_num at hfar; exact hfar
  refine ⟨rfl, ?_, ?_, ?_, ?_⟩
  · simp [handle_svc, mkVmExitInfo, Nat.mod_eq_of_lt hfar2]
  · intro h0; simp [handle_svc, mkVmExitInfo, h0]
  · intro h1; simp [handle_svc, mkVmExitInfo, h1]
  · intro h0 h1
    rcases hn : ctx.regs 0 with _ | _ | n
    · exact absurd hn h0
    · exact absurd hn h1
    · simp [handle_svc, mkVmExitInfo, hn]

/-- C6 witness: the supervisor-call contract at a concrete context and
faulting address. -/
theorem c6_svc_contract_witness :
    let ctx := { VcpuStateStruct.new with regs := Function.update VcpuStateStruct.new.regs 0 7 }
    let r := handle_svc ctx (mkVmExitInfo 0x55000000 0x4000 0)
    r.2 = true ∧ r.1.elr_el2 = 0x4004 ∧ r.1.regs 0 = 0xFFFFFFFF := by
  have h := c6_svc_contract
    { VcpuStateStruct.new with regs := Function.update VcpuStateStruct.new.regs 0 7 }
    0x55000000 0x4000 0 (by norm_num)
  exact ⟨h.1, h.2.1, h.2.2.2.2 (by decide) (by decide)⟩



/-! ## C9: flush fills free list registers in FIFO order -/

/-- The list of free list-register indices, in increasing order (the order
the fill loop of `flush` visits them). -/
def freeIdxs (lrs : Fin 4 -> Nat) : List (Fin 4) :=
  [0, 1, 2, 3].filter (fun i => lrFree lrs i)

theorem irqAt_mod (v : Vgic) (a b : Nat) (h : a % 64 = b % 64) :
    irqAt v a = irqAt v b := by
  unfold irqAt
  exact congrArg v.pending_irqs (Fin.ext (by simpa using h))

/-- Characterization of the fill loop of `flush` over any duplicate-free
index list: with `F` the free indices (in visit order) and
`k = min F.length count`, the count drops by `k`, the head advances by `k`
mod 64, the tail and the stored identifiers are untouched, the first `k`
free slots receive the identifiers at head, head+1, ... (mod 64) in FIFO
order, and every other list register is untouched. -/
theorem flush_loop_spec : ∀ (is : List (Fin 4)), is.Nodup ->
    ∀ (st : FlushSt), st.vgic.pending_head < 64 ->
    (flush_loop st is).vgic.pending_count =
        st.vgic.pending_count
          - min (is.filter st.free_mask).length st.vgic.pending_count ∧
    (flush_loop st is).vgic.pending_head =
        (st.vgic.pending_head
          + min (is.filter st.free_mask).length st.vgic.pending_count) % 64 ∧
    (flush_loop st is).vgic.pending_tail = st.vgic.pending_tail ∧
    (flush_loop st is).vgic.pending_irqs = st.vgic.pending_irqs ∧
    (∀ j : Nat, j < min (is.filter st.free_mask).length st.vgic.pending_count ->
        (flush_loop st is).lrs ((is.filter st.free_mask).getD j 0) =
          lrPendingGroup1 (irqAt st.vgic (st.vgic.pending_head + j))) ∧
    (∀ j : Nat, min (is.filter st.free_mask).length st.vgic.pending_count ≤ j ->
        j < (is.filter st.free_mask).length ->
        (flush_loop st is).lrs ((is.filter st.free_mask).getD j 0) =
          st.lrs ((is.filter st.free_mask).getD j 0)) ∧
    (∀ i : Fin 4, i ∉ is.filter st.free_mask ->
        (flush_loop st is).lrs i = st.lrs i) := by
  intro is
  induction is with
  | nil =>
    intro _ st hhead
    refine ⟨by simp [flush_loop], by simp [flush_loop, Nat.mod_eq_of_lt hhead],
      rfl, rfl, ?_, ?_, ?_⟩
    · intro j hj
      simp at hj
    · intro j _ hj
      simp at hj
    · intro i _
      rfl
  | cons i is2 ih =>
    intro hnd st hhead
    obtain ⟨hi, hnd2⟩ := List.nodup_cons.mp hnd
    have hloop : flush_loop st (i :: is2) = flush_loop (flush_step st i) is2 := rfl
    by_cases hmask : st.free_mask i = true
    · by_cases hcnt : 0 < st.vgic.pending_count
      · -- the slot is free and entries are pending: this iteration fires
        have hfire_c : (flush_step st i).vgic.pending_count = st.vgic.pending_count - 1 := by
          rw [flush_step, if_pos ⟨hmask, hcnt⟩]
        have hfire_h : (flush_step st i).vgic.pending_head = (st.vgic.pending_head + 1) % 64 := by
          rw [flush_step, if_pos ⟨hmask, hcnt⟩]
        have hfire_t : (flush_step st i).vgic.pending_tail = st.vgic.pending_tail := by
          rw [flush_step, if_pos ⟨hmask, hcnt⟩]
        have hfire_i : (flush_step st i).vgic.pending_irqs = st.vgic.pending_irqs := by
          rw [flush_step, if_pos ⟨hmask, hcnt⟩]
        have hfire_lrs : (flush_step st i).lrs =
            Function.update st.lrs i (lrPendingGroup1 (irqAt st.vgic st.vgic.pending_head)) := by
          rw [flush_step, if_pos ⟨hmask, hcnt⟩]
        have hfire_m : (flush_step st i).free_mask = Function.update st.free_mask i false := by
          rw [flush_step, if_pos ⟨hmask, hcnt⟩]
        have hhead1 : (flush_step st i).vgic.pending_head < 64 := by
          rw [hfire_h]
          exact Nat.mod_lt _ (by omega)
        have hF1 : is2.filter (Function.update st.free_mask i false) = is2.filter st.free_mask := by
          refine List.filter_congr fun x hx => ?_
          have hxne : x ≠ i := fun hxi => hi (hxi ▸ hx)
          exact Function.update_noteq hxne _ _
        have hirq : ∀ n, irqAt (flush_step st i).vgic n = irqAt st.vgic n := by
          intro n
          unfold irqAt
          rw [hfire_i]
        have hfilter : (i :: is2).filter st.free_mask = i :: is2.filter st.free_mask :=
          List.filter_cons_of_pos hmask
        obtain ⟨ihc, ihh, iht, ihi, ihfill, ihfree, ihout⟩ := ih hnd2 (flush_step st i) hhead1
        rw [hfire_m, hF1, hfire_c] at ihc
        rw [hfire_m, hF1, hfire_c, hfire_h] at ihh
        rw [hfire_t] at iht
        rw [hfire_i] at ihi
        rw [hfire_m, hF1, hfire_c, hfire_h] at ihfill
        simp only [hirq] at ihfill
        rw [hfire_m, hF1, hfire_c, hfire_lrs] at ihfree
        rw [hfire_m, hF1, hfire_lrs] at ihout
        refine ⟨?_, ?_, ?_, ?_, ?_, ?_, ?_⟩
        · rw [hloop, ihc, hfilter]
          simp only [List.length_cons]
          omega
        · rw [hloop, ihh, Nat.mod_add_mod, hfilter]
          simp only [List.length_cons]
          omega
        · rw [hloop]
          exact iht
        · rw [hloop]
          exact ihi
        · intro j hj
          rw [hfilter] at hj ⊢
          rw [hloop]
          match j with
          | 0 =>
            simp only [List.getD_cons_zero, Nat.add_zero]
            rw [ihout i (fun hmem => hi (List.mem_of_mem_filter hmem)), Function.update_same]
          | j2 + 1 =>
            simp only [List.getD_cons_succ]
            have hj2 : j2 < min (is2.filter st.free_mask).length
                (st.vgic.pending_count - 1) := by
              simp only [List.length_cons] at hj
              omega
            rw [ihfill j2 hj2]
            refine congrArg lrPendingGroup1 (irqAt_mod _ _ _ ?_)
            omega
        · intro j hk hlen
          rw [hfilter] at hk hlen ⊢
          rw [hloop]
          match j with
          | 0 =>
            exfalso
            simp only [List.length_cons] at hk
            omega
          | j2 + 1 =>
            simp only [List.getD_cons_succ]
            have hk2 : min (is2.filter st.free_mask).length
                (st.vgic.pending_count - 1) ≤ j2 := by
              simp only [List.length_cons] at hk
              omega
            have hlen2 : j2 < (is2.filter st.free_mask).length := by
              simp only [List.length_cons] at hlen
              omega
            have hmem2 : (is2.filter st.free_mask).getD j2 0 ∈ is2.filter st.free_mask := by
              rw [List.getD_eq_getElem _ _ hlen2]
              exact List.getElem_mem hlen2
            have hne : (is2.filter st.free_mask).getD j2 0 ≠ i := fun he =>
              hi (List.mem_of_mem_filter (he ▸ hmem2))
            rw [ihfree j2 hk2 hlen2]
            exact Function.update_noteq hne _ _
        · intro i2 hmem
          rw [hfilter] at hmem
          simp only [List.mem_cons, not_or] at hmem
          obtain ⟨hne, hnm⟩ := hmem
          rw [hloop, ihout i2 hnm]
          exact Function.update_noteq hne _ _
      · -- entries exhausted: this and all later iterations are no-ops
        have hstep : flush_step st i = st := by
          rw [flush_step, if_neg (fun hc => hcnt hc.2)]
        have hcnt0 : st.vgic.pending_count = 0 := by omega
        have hfilter : (i :: is2).filter st.free_mask = i :: is2.filter st.free_mask :=
          List.filter_cons_of_pos hmask
        obtain ⟨ihc, ihh, iht, ihi, ihfill, ihfree, ihout⟩ := ih hnd2 st hhead
        refine ⟨?_, ?_, ?_, ?_, ?_, ?_, ?_⟩
        · rw [hloop, hstep, ihc]
          omega
        · rw [hloop, hstep, ihh]
          omega
        · rw [hloop, hstep, iht]
        · rw [hloop, hstep, ihi]
        · intro j hj
          exfalso
          omega
        · intro j hk hlen
          rw [hfilter] at hk hlen ⊢
          rw [hloop, hstep]
          match j with
          | 0 =>
            simp only [List.getD_cons_zero]
            exact ihout i (fun hmem => hi (List.mem_of_mem_filter hmem))
          | j2 + 1 =>
            simp only [List.getD_cons_succ]
            have hlen2 : j2 < (is2.filter st.free_mask).length := by
              simp only [List.length_cons] at hlen
              omega
            exact ihfree j2 (by omega) hlen2
        · intro i2 hmem
          rw [hfilter] at hmem
          simp only [List.mem_cons, not_or] at hmem
          rw [hloop, hstep]
          exact ihout i2 hmem.2
    · -- the slot is not free: this iteration is a no-op
      have hstep : flush_step st i = st := by
        rw [flush_step, if_neg (fun hc => hmask hc.1)]
      have hfilter : (i :: is2).filter st.free_mask = is2.filter st.free_mask :=
        List.filter_cons_of_neg hmask
      obtain ⟨ihc, ihh, iht, ihi, ihfill, ihfree, ihout⟩ := ih hnd2 st hhead
      rw [hloop, hstep, hfilter]
      exact ⟨ihc, ihh, iht, ihi, ihfill, ihfree, ihout⟩


/-- C9: from a well-formed queue with at least one pending entry and at
least one free list register, `flush` fills at least one slot, the pending
count decreases by exactly 1 per filled slot (k slots are filled, with
k = min(free slots, pending entries) — until slots or entries are
exhausted), the head advances by 1 mod 64 per dequeue, the tail and stored
identifiers are untouched, the j-th free slot (in index order) receives the
identifier at position head+j mod 64 — strict FIFO order — encoded
Pending/Group-1, remaining free slots and non-free slots are untouched, and
every written value has state bits [63:62] = 01 and bit 60 set. -/
theorem c9_flush_fifo (g : GicState) (vcpu_id : Nat) (h : vcpu_id < 4)
    (hhead : (g.vgics ⟨vcpu_id, h⟩).pending_head < 64)
    (htail : (g.vgics ⟨vcpu_id, h⟩).pending_tail < 64)
    (hcnt : 1 ≤ (g.vgics ⟨vcpu_id, h⟩).pending_count)
    (hfree : ∃ i : Fin 4, lrFree g.lrs i = true) :
    1 ≤ min (freeIdxs (force_clear g.lrs)).length (g.vgics ⟨vcpu_id, h⟩).pending_count ∧
    ((flush g vcpu_id).vgics ⟨vcpu_id, h⟩).pending_count =
      (g.vgics ⟨vcpu_id, h⟩).pending_count -
        min (freeIdxs (force_clear g.lrs)).length (g.vgics ⟨vcpu_id, h⟩).pending_count ∧
    ((flush g vcpu_id).vgics ⟨vcpu_id, h⟩).pending_head =
      ((g.vgics ⟨vcpu_id, h⟩).pending_head +
        min (freeIdxs (force_clear g.lrs)).length (g.vgics ⟨vcpu_id, h⟩).pending_count) % 64 ∧
    ((flush g vcpu_id).vgics ⟨vcpu_id, h⟩).pending_tail =
      (g.vgics ⟨vcpu_id, h⟩).pending_tail ∧
    ((flush g vcpu_id).vgics ⟨vcpu_id, h⟩).pending_irqs =
      (g.vgics ⟨vcpu_id, h⟩).pending_irqs ∧
    (∀ j : Nat,
        j < min (freeIdxs (force_clear g.lrs)).length (g.vgics ⟨vcpu_id, h⟩).pending_count ->
        (flush g vcpu_id).lrs ((freeIdxs (force_clear g.lrs)).getD j 0) =
          lrPendingGroup1
            (irqAt (g.vgics ⟨vcpu_id, h⟩) ((g.vgics ⟨vcpu_id, h⟩).pending_head + j))) ∧
    (∀ j : Nat,
        min (freeIdxs (force_clear g.lrs)).length (g.vgics ⟨vcpu_id, h⟩).pending_count ≤ j ->
        j < (freeIdxs (force_clear g.lrs)).length ->
        (flush g vcpu_id).lrs ((freeIdxs (force_clear g.lrs)).getD j 0) =
          force_clear g.lrs ((freeIdxs (force_clear g.lrs)).getD j 0)) ∧
    (∀ i : Fin 4, i ∉ freeIdxs (force_clear g.lrs) ->
        (flush g vcpu_id).lrs i = force_clear g.lrs i) ∧
    (∀ n : Nat, n < 2 ^ 60 ->
        (lrPendingGroup1 n).testBit 63 = false ∧
        (lrPendingGroup1 n).testBit 62 = true ∧
        (lrPendingGroup1 n).testBit 60 = true) := by
  have hsane : ¬ (64 ≤ (g.vgics ⟨vcpu_id, h⟩).pending_head ∨
      64 ≤ (g.vgics ⟨vcpu_id, h⟩).pending_tail) := by omega
  have hflush : flush g vcpu_id =
      { vgics := Function.update g.vgics ⟨vcpu_id, h⟩ (flush_loop { vgic := g.vgics ⟨vcpu_id, h⟩, lrs := force_clear g.lrs, free_mask := lrFree (force_clear g.lrs) } [0, 1, 2, 3]).vgic, lrs := (flush_loop { vgic := g.vgics ⟨vcpu_id, h⟩, lrs := force_clear g.lrs, free_mask := lrFree (force_clear g.lrs) } [0, 1, 2, 3]).lrs } := by
    simp only [flush, dif_pos h, if_neg hsane]
  set st0 : FlushSt := { vgic := g.vgics ⟨vcpu_id, h⟩, lrs := force_clear g.lrs, free_mask := lrFree (force_clear g.lrs) } with hst0
  have hv2 : (flush g vcpu_id).vgics ⟨vcpu_id, h⟩ = (flush_loop st0 [0, 1, 2, 3]).vgic := by
    rw [hflush]
    exact Function.update_same _ _ _
  have hlrs2 : (flush g vcpu_id).lrs = (flush_loop st0 [0, 1, 2, 3]).lrs := by
    rw [hflush]
  have hFdef : [0, 1, 2, 3].filter st0.free_mask = freeIdxs (force_clear g.lrs) := rfl
  obtain ⟨sc, sh, stl, si, sfill, sfree, sout⟩ :=
    flush_loop_spec [0, 1, 2, 3] (by decide) st0 hhead
  rw [hFdef] at sc sh sfill sfree sout
  -- at least one list register is free after the force-clear pass
  obtain ⟨i0, hi0⟩ := hfree
  have hkeep : force_clear g.lrs i0 = g.lrs i0 := by
    unfold force_clear
    rw [if_neg]
    simp [hi0]
  have hfree1 : lrFree (force_clear g.lrs) i0 = true := by
    unfold lrFree at hi0 ⊢
    rw [hkeep]
    exact hi0
  have hmem04 : ∀ x : Fin 4, x ∈ ([0, 1, 2, 3] : List (Fin 4)) := by decide
  have hmem : i0 ∈ freeIdxs (force_clear g.lrs) := by
    unfold freeIdxs
    rw [List.mem_filter]
    exact ⟨hmem04 i0, hfree1⟩
  have hlen1 : 0 < (freeIdxs (force_clear g.lrs)).length := List.length_pos_of_mem hmem
  have hk1 : 1 ≤ min (freeIdxs (force_clear g.lrs)).length
      (g.vgics ⟨vcpu_id, h⟩).pending_count := by omega
  refine ⟨hk1, ?_, ?_, ?_, ?_, ?_, ?_, ?_, ?_⟩
  · rw [hv2]
    exact sc
  · rw [hv2]
    exact sh
  · rw [hv2]
    exact stl
  · rw [hv2]
    exact si
  · intro j hj
    rw [hlrs2]
    exact sfill j hj
  · intro j hk hlen
    rw [hlrs2]
    exact sfree j hk hlen
  · intro i hnm
    rw [hlrs2]
    exact sout i hnm
  · intro n hn
    have h63 : n.testBit 63 = false :=
      Nat.testBit_lt_two_pow (lt_trans hn (by norm_num))
    have h62 : n.testBit 62 = false :=
      Nat.testBit_lt_two_pow (lt_trans hn (by norm_num))
    refine ⟨?_, ?_, ?_⟩
    · simp [lrPendingGroup1, Nat.testBit_or, h63]
      decide
    · simp [lrPendingGroup1, Nat.testBit_or, h62]
      decide
    · simp [lrPendingGroup1, Nat.testBit_or]
      exact Or.inl (by decide)

/-- A concrete vGIC state for the C9 witness: core 0 has one pending
identifier (33) and all four list registers are empty. -/
def sampleGic9 : GicState :=
  { vgics := Function.update (fun _ => Vgic.new) 0 { Vgic.new with pending_irqs := Function.update Vgic.new.pending_irqs 0 33, pending_count := 1, pending_tail := 1 },
    lrs := fun _ => 0 }

/-- C9 witness: one pending identifier and four free slots, through the
theorem itself: the queue drains (count 0, head 1) and list register 0
receives identifier 33 tagged Pending/Group-1. -/
theorem c9_flush_fifo_witness :
    ((flush sampleGic9 0).vgics ⟨0, by omega⟩).pending_count = 0 ∧
    ((flush sampleGic9 0).vgics ⟨0, by omega⟩).pending_head = 1 ∧
    (flush sampleGic9 0).lrs 0 = lrPendingGroup1 33 ∧
    (lrPendingGroup1 33).testBit 62 = true ∧
    (lrPendingGroup1 33).testBit 60 = true := by
  have h := c9_flush_fifo sampleGic9 0 (by omega) (by decide) (by decide) (by decide)
    ⟨0, by decide⟩
  refine ⟨h.2.1.trans (by decide), h.2.2.1.trans (by decide), ?_, ?_, ?_⟩
  · have hfill := h.2.2.2.2.2.1 0 (by decide)
    exact hfill.trans (by decide)
  · exact (h.2.2.2.2.2.2.2.2 33 (by norm_num)).2.1
  · exact (h.2.2.2.2.2.2.2.2 33 (by norm_num)).2.2

/-! ## Sample states used by witnesses -/

/-- A sample saved context with a concrete return address. -/
def sampleCtx : VcpuStateStruct := { VcpuStateStruct.new with elr_el2 := 0x40000000 }

/-- A sample global vGIC state: empty queues, cleared list registers. -/
def sampleGic : GicState := { vgics := fun _ => Vgic.new, lrs := fun _ => 0 }

/-- A sample hypervisor state with virtual core 0 current. -/
def sampleHyp : HypState :=
  { ctx := sampleCtx, gic := sampleGic, current_vcpu := some 0, vbar_el1_hw := 0 }

/-! ## C2, C5: hypervisor-call behavior -/

/-- C2: hypervisor call 2 returns the terminate verdict with the whole
state (in particular the saved exception-return address) untouched,
regardless of register contents; hypervisor call 0 returns the resume
verdict, preserves register 0 of the saved context, and leaves the saved
exception-return address exactly 4 greater than at call entry. -/
theorem c2_hvc_terminate_resume :
    (∀ (s : HypState) (esr : Nat), esr &&& 0xFFFF = 2 →
      handle_hvc s esr = some (s, false)) ∧
    (∀ (s : HypState) (esr : Nat), esr &&& 0xFFFF = 0 → s.ctx.elr_el2 + 4 < 2 ^ 64 →
      ∃ s1, handle_hvc s esr = some (s1, true) ∧
        s1.ctx.regs 0 = s.ctx.regs 0 ∧
        s1.ctx.elr_el2 = s.ctx.elr_el2 + 4) := by
  constructor
  · intro s esr h
    simp [handle_hvc, h]
  · intro s esr h hlt
    have hred : handle_hvc s esr =
        some ({ s with ctx := { s.ctx with elr_el2 := (s.ctx.elr_el2 + 4) % 2 ^ 64 } }, true) := by
      simp [handle_hvc, h, Function.update_eq_self]
    exact ⟨_, hred, rfl, Nat.mod_eq_of_lt hlt⟩

/-- C2 witness: both verdicts at a concrete state and concrete syndromes. -/
theorem c2_hvc_terminate_resume_witness :
    handle_hvc sampleHyp 2 = some (sampleHyp, false) ∧
    (∃ s1, handle_hvc sampleHyp 0 = some (s1, true) ∧
      s1.ctx.regs 0 = sampleHyp.ctx.regs 0 ∧
      s1.ctx.elr_el2 = sampleHyp.ctx.elr_el2 + 4) :=
  ⟨c2_hvc_terminate_resume.1 sampleHyp 2 (by decide),
   c2_hvc_terminate_resume.2 sampleHyp 0 (by decide) (by norm_num [sampleHyp, sampleCtx])⟩

/-- C5: the claim says hypervisor call 4 enqueues virtual interrupt 33 on
the current core's pending queue.  In the source, `handle_hvc` case 4 calls
`vgic::inject_fiq(33)`, whose body is an empty stub, so nothing is ever
enqueued: from a state with an empty pending queue on the current core, the
queue is still empty (count 0, tail 0) after handling hypervisor call 4,
and the whole vGIC state is unchanged. -/
theorem c5_hvc4_injects_nothing :
    ∃ r, handle_hvc sampleHyp 4 = some r ∧
      r.1.gic = sampleHyp.gic ∧
      (r.1.gic.vgics 0).pending_count = 0 ∧
      (r.1.gic.vgics 0).pending_tail = 0 := by
  exact ⟨_, rfl, rfl, rfl, rfl⟩

/-! ## C8: queue overflow behavior -/

/-- Sequential injection into one queue (`inject` called repeatedly on the
same core with no intervening `flush`). -/
def injectSeqQ (v : Vgic) (l : List Nat) : Option Vgic := l.foldlM injectQ v

/-- Well-formedness of a queue, maintained by the source: head and tail
are kept reduced mod 64 and the count never exceeds the capacity. -/
def WFQ (v : Vgic) : Prop :=
  v.pending_head < 64 ∧ v.pending_tail < 64 ∧ v.pending_count ≤ 64

theorem injectQ_full (v : Vgic) (x : Nat) (h : 64 ≤ v.pending_count) :
    injectQ v x = some v := by
  simp [injectQ, h]

theorem injectQ_spec (v : Vgic) (x : Nat) (h : WFQ v) :
    ∃ v2, injectQ v x = some v2 ∧ WFQ v2 ∧
      v2.pending_count = min (v.pending_count + 1) 64 := by
  obtain ⟨h1, h2, h3⟩ := h
  by_cases hc : 64 ≤ v.pending_count
  · exact ⟨v, injectQ_full v x hc, ⟨h1, h2, h3⟩, by omega⟩
  · refine ⟨{ v with pending_irqs := Function.update v.pending_irqs ⟨v.pending_tail, h2⟩ x, pending_tail := (v.pending_tail + 1) % 64, pending_count := v.pending_count + 1 }, by rw [injectQ, if_neg hc, dif_pos h2], ⟨h1, ?_, ?_⟩, ?_⟩
    · show (v.pending_tail + 1) % 64 < 64
      exact Nat.mod_lt _ (by omega)
    · show v.pending_count + 1 ≤ 64
      omega
    · show v.pending_count + 1 = min (v.pending_count + 1) 64
      omega

theorem injectSeqQ_spec : ∀ (l : List Nat) (v : Vgic), WFQ v →
    ∃ v2, injectSeqQ v l = some v2 ∧ WFQ v2 ∧
      v2.pending_count = min (v.pending_count + l.length) 64 := by
  intro l
  induction l with
  | nil => intro v h; exact ⟨v, rfl, h, by obtain ⟨_, _, h3⟩ := h; simp; omega⟩
  | cons x xs ih =>
    intro v h
    obtain ⟨v1, hv1, hwf1, hc1⟩ := injectQ_spec v x h
    obtain ⟨v2, hv2, hwf2, hc2⟩ := ih v1 hwf1
    refine ⟨v2, ?_, hwf2, ?_⟩
    · show (x :: xs).foldlM injectQ v = some v2
      rw [List.foldlM_cons, hv1]
      exact hv2
    · rw [hc2, hc1]
      simp
      omega

/-- C8: from any well-formed queue, injecting 65 identifiers with no
intervening flush succeeds (no aborted execution), leaves the pending count
at exactly 64, ends in a state identical to the one reached by injecting
only the first 64 (the 65th injection is dropped), and once full any
further injection changes nothing. -/
theorem c8_queue_overflow (v : Vgic) (l : List Nat) (hwf : WFQ v) (hlen : l.length = 65) :
    ∃ v2, injectSeqQ v l = some v2 ∧ injectSeqQ v (l.take 64) = some v2 ∧
      v2.pending_count = 64 ∧ ∀ x, injectQ v2 x = some v2 := by
  obtain ⟨v1, h1, hwf1, hc1⟩ := injectSeqQ_spec (l.take 64) v hwf
  have hc1x : v1.pending_count = 64 := by
    rw [hc1]
    simp [List.length_take, hlen]
  have hfull : ∀ x, injectQ v1 x = some v1 := fun x => injectQ_full v1 x (le_of_eq hc1x.symm)
  have hdlen : (l.drop 64).length = 1 := by simp [hlen]
  obtain ⟨y, hy⟩ := List.length_eq_one.mp hdlen
  have hl : l = l.take 64 ++ [y] := by rw [← hy, List.take_append_drop]
  refine ⟨v1, ?_, h1, hc1x, hfull⟩
  calc injectSeqQ v l = injectSeqQ v (l.take 64 ++ [y]) := by rw [← hl]
    _ = some v1 := by
        have h1x : List.foldlM injectQ v (l.take 64) = some v1 := h1
        show (l.take 64 ++ [y]).foldlM injectQ v = some v1
        rw [List.foldlM_append, h1x]
        simp [List.foldlM_cons, hfull y]

/-- C8 witness: 65 concrete injections into the empty queue through the
theorem itself. -/
theorem c8_queue_overflow_witness :
    ∃ v2, injectSeqQ Vgic.new (List.range 65) = some v2 ∧
      injectSeqQ Vgic.new ((List.range 65).take 64) = some v2 ∧
      v2.pending_count = 64 ∧ ∀ x, injectQ v2 x = some v2 :=
  c8_queue_overflow Vgic.new (List.range 65)
    (by refine ⟨?_, ?_, ?_⟩ <;> simp [Vgic.new])
    (by simp)

/-! ## C10: out-of-range core identifiers -/

/-- C10: for every core identifier outside 0..4, `inject` and `flush`
return silently (no aborted execution) with the whole vGIC state — every
per-core queue and every hardware list register — unchanged. -/
theorem c10_out_of_range_noop (g : GicState) (vcpu_id intid : Nat) (h : 4 ≤ vcpu_id) :
    inject g vcpu_id intid = some g ∧ flush g vcpu_id = g := by
  have hn : ¬ vcpu_id < 4 := by omega
  constructor
  · rw [inject, dif_neg hn]
  · rw [flush, dif_neg hn]

/-- C10 witness: core identifier 4 at a concrete state. -/
theorem c10_out_of_range_noop_witness :
    inject sampleGic 4 99 = some sampleGic ∧ flush sampleGic 4 = sampleGic :=
  c10_out_of_range_noop sampleGic 4 99 (by decide)

/-! ## Virtual core store (`vcpu.rs`) -/

/-- Mirrors `VcpuState` in `vcpu.rs`. -/
inductive VcpuState where
  | Stopped
  | Running
  | Paused
  | Exited
  deriving DecidableEq, Repr

/-- Mirrors `Vcpu` in `vcpu.rs`. -/
structure Vcpu where
  id : Nat
  state : VcpuState
  context : VcpuStateStruct
  entry : Nat
  stack_top : Nat
  pending_irq : Bool
  pending_fiq : Bool

/-- Mirrors `Vcpu::new`: a fresh context with `elr_el2 = entry` (an exact
`usize` to `u64` cast) and the fixed default saved PSTATE 0x3C5 (guest EL1h,
DAIF masked). -/
def Vcpu.new (id entry stack_top : Nat) : Vcpu :=
  { id := id, state := .Stopped,
    context := { VcpuStateStruct.new with elr_el2 := entry, spsr := 0x3C5 },
    entry := entry, stack_top := stack_top,
    pending_irq := false, pending_fiq := false }

/-- Mirrors `Vcpu::can_run`. -/
def Vcpu.can_run (v : Vcpu) : Bool :=
  v.state = .Stopped || v.state = .Paused || v.state = .Exited

/-- Mirrors `VcpuManager` in `vcpu.rs`: a fixed table of 4 slots, the count
of occupied slots, and the current virtual core. -/
structure VcpuManager where
  vcpus : Fin 4 -> Option Vcpu
  count : Nat
  current_vcpu : Option Nat

/-- Mirrors `VcpuManager::new`. -/
def VcpuManager.new : VcpuManager :=
  { vcpus := fun _ => none, count := 0, current_vcpu := none }

/-- Mirrors `VcpuManager::create_vcpu`, with the source's error strings:
id out of range, then table full, then slot occupied are checked in that
order; otherwise the new core is inserted and the count incremented. -/
def create_vcpu (m : VcpuManager) (id entry stack_top : Nat) :
    Except String VcpuManager :=
  if h : id < 4 then
    if 4 <= m.count then .error "Reached max vCPU count"
    else if (m.vcpus ⟨id, h⟩).isSome then .error "vCPU ID already used"
    else .ok { m with
      vcpus := Function.update m.vcpus ⟨id, h⟩ (some (Vcpu.new id entry stack_top)),
      count := m.count + 1 }
  else .error "vCPU ID out of range (max 3)"

/-- The observable outcome of `VcpuManager::run_vcpu`. -/
inductive RunOutcome where
  | notFound        -- slot empty: log and return
  | invalidState    -- core present but `can_run` is false: log and return
  | transferred     -- privilege transfer into the guest performed
  deriving DecidableEq, Repr

/-- Mirrors `VcpuManager::run_vcpu`.  The source indexes
`self.vcpus[vcpu_id]` with an unchecked `usize`, so an identifier >= 4
aborts (index out of bounds), modelled by `none`.  Otherwise: an empty slot
or a core that cannot run leaves the store unchanged; else the identifier
is recorded as current and `Vcpu::run` marks the core Running and performs
the privilege transfer. -/
def run_vcpu (m : VcpuManager) (vcpu_id : Nat) : Option (VcpuManager × RunOutcome) :=
  if h : vcpu_id < 4 then
    match m.vcpus ⟨vcpu_id, h⟩ with
    | none => some (m, .notFound)
    | some v =>
      if v.can_run = false then some (m, .invalidState)
      else
        some ({ m with current_vcpu := some vcpu_id,
                       vcpus := Function.update m.vcpus ⟨vcpu_id, h⟩
                         (some { v with state := .Running }) },
              .transferred)
  else none

/-! ## C3: creation of virtual cores -/

theorem create_vcpu_ok_count {m m2 : VcpuManager} {id entry stack_top : Nat}
    (h : create_vcpu m id entry stack_top = .ok m2) : m2.count = m.count + 1 := by
  rw [create_vcpu] at h
  split at h
  · split at h
    · cases h
    · split at h
      · cases h
      · cases h
        rfl
  · cases h

/-- C3: `create` fails IdOutOfRange when id >= 4; fails MaxLimitReached
when the table already holds 4 cores; fails IdAlreadyUsed when the slot is
occupied (and the table is not full, which the source checks first);
otherwise it inserts `Vcpu::new id entry stack_top` — whose context has
`elr_el2 = entry` and the fixed default saved PSTATE 0x3C5 — into slot id,
leaving the other slots alone and incrementing the occupied count by
exactly one.  After any 4 successful creations from the fresh store, every
further creation at a valid id fails MaxLimitReached. -/
theorem c3_create_contract :
    (∀ (m : VcpuManager) (id e st : Nat), 4 <= id ->
      create_vcpu m id e st = .error "vCPU ID out of range (max 3)") ∧
    (∀ (m : VcpuManager) (id e st : Nat), id < 4 -> 4 <= m.count ->
      create_vcpu m id e st = .error "Reached max vCPU count") ∧
    (∀ (m : VcpuManager) (id e st : Nat) (h : id < 4), m.count < 4 ->
      (m.vcpus ⟨id, h⟩).isSome -> create_vcpu m id e st = .error "vCPU ID already used") ∧
    (∀ (m : VcpuManager) (id e st : Nat) (h : id < 4), m.count < 4 ->
      m.vcpus ⟨id, h⟩ = none ->
      ∃ m2, create_vcpu m id e st = .ok m2 ∧
        m2.count = m.count + 1 ∧
        m2.vcpus ⟨id, h⟩ = some (Vcpu.new id e st) ∧
        (Vcpu.new id e st).context.elr_el2 = e ∧
        (Vcpu.new id e st).context.spsr = 0x3C5 ∧
        (∀ j : Fin 4, j ≠ ⟨id, h⟩ -> m2.vcpus j = m.vcpus j)) ∧
    (∀ (m1 m2 m3 m4 : VcpuManager) (i0 i1 i2 i3 e0 e1 e2 e3 s0 s1 s2 s3 : Nat),
      create_vcpu VcpuManager.new i0 e0 s0 = .ok m1 ->
      create_vcpu m1 i1 e1 s1 = .ok m2 ->
      create_vcpu m2 i2 e2 s2 = .ok m3 ->
      create_vcpu m3 i3 e3 s3 = .ok m4 ->
      ∀ id e st, id < 4 -> create_vcpu m4 id e st = .error "Reached max vCPU count") := by
  refine ⟨?_, ?_, ?_, ?_, ?_⟩
  · intro m id e st h
    rw [create_vcpu, dif_neg (by omega)]
  · intro m id e st h hc
    rw [create_vcpu, dif_pos h, if_pos hc]
  · intro m id e st h hc hs
    rw [create_vcpu, dif_pos h, if_neg (by omega), if_pos hs]
  · intro m id e st h hc hn
    refine ⟨{ m with vcpus := Function.update m.vcpus ⟨id, h⟩ (some (Vcpu.new id e st)), count := m.count + 1 }, ?_, rfl, ?_, rfl, rfl, ?_⟩
    · rw [create_vcpu, dif_pos h, if_neg (by omega), if_neg (by simp [hn])]
    · show Function.update m.vcpus ⟨id, h⟩ (some (Vcpu.new id e st)) ⟨id, h⟩ = _
      simp
    · intro j hj
      show Function.update m.vcpus ⟨id, h⟩ (some (Vcpu.new id e st)) j = m.vcpus j
      simp [Function.update_noteq hj]
  · intro m1 m2 m3 m4 i0 i1 i2 i3 e0 e1 e2 e3 s0 s1 s2 s3 h1 h2 h3 h4 id e st hid
    have c1 := create_vcpu_ok_count h1
    have c2 := create_vcpu_ok_count h2
    have c3 := create_vcpu_ok_count h3
    have c4 := create_vcpu_ok_count h4
    have hm4 : 4 <= m4.count := by
      have h0 : VcpuManager.new.count = 0 := rfl
      omega
    rw [create_vcpu, dif_pos hid, if_pos hm4]

/-- C3 witness: a failing and a succeeding creation at concrete inputs
through the theorem itself. -/
theorem c3_create_contract_witness :
    create_vcpu VcpuManager.new 7 0x40000000 0x41000000 = .error "vCPU ID out of range (max 3)" ∧
    ∃ m2, create_vcpu VcpuManager.new 0 0x40000000 0x41000000 = .ok m2 ∧
      m2.count = 1 ∧
      m2.vcpus ⟨0, by omega⟩ = some (Vcpu.new 0 0x40000000 0x41000000) ∧
      (Vcpu.new 0 0x40000000 0x41000000).context.elr_el2 = 0x40000000 ∧
      (Vcpu.new 0 0x40000000 0x41000000).context.spsr = 0x3C5 ∧
      (∀ j : Fin 4, j ≠ ⟨0, by omega⟩ -> m2.vcpus j = VcpuManager.new.vcpus j) := by
  refine ⟨c3_create_contract.1 VcpuManager.new 7 0x40000000 0x41000000 (by omega), ?_⟩
  exact c3_create_contract.2.2.2.1 VcpuManager.new 0 0x40000000 0x41000000
    (by omega) (by decide) rfl

/-! ## C4: running a virtual core -/

/-- C4 counterexample: the claim says `run(id)` never aborts even for
id >= 4, but the source indexes the 4-entry slot table with the raw
identifier, so `run_vcpu` on the fresh store with id 4 aborts (index out of
bounds), which `none` models. -/
theorem c4_run_counterexample : run_vcpu VcpuManager.new 4 = none := rfl

/-- C4 (amended): for every id < 4, `run(id)` with an empty slot logs and
returns normally, leaving the store (slots, count, current core) unchanged;
with a core present that cannot run it likewise logs and returns; only
otherwise does it record id as current and perform the privilege transfer
(marking the core Running).  For id >= 4 the slot lookup aborts with an
index-out-of-bounds error. -/
theorem c4_run_contract (m : VcpuManager) (vcpu_id : Nat) (h : vcpu_id < 4) :
    (m.vcpus ⟨vcpu_id, h⟩ = none -> run_vcpu m vcpu_id = some (m, .notFound)) ∧
    (∀ v, m.vcpus ⟨vcpu_id, h⟩ = some v -> v.can_run = false ->
      run_vcpu m vcpu_id = some (m, .invalidState)) ∧
    (∀ v, m.vcpus ⟨vcpu_id, h⟩ = some v -> v.can_run = true ->
      ∃ m2, run_vcpu m vcpu_id = some (m2, .transferred) ∧
        m2.current_vcpu = some vcpu_id ∧
        m2.count = m.count ∧
        m2.vcpus ⟨vcpu_id, h⟩ = some { v with state := .Running } ∧
        (∀ j : Fin 4, j ≠ ⟨vcpu_id, h⟩ -> m2.vcpus j = m.vcpus j)) := by
  refine ⟨?_, ?_, ?_⟩
  · intro hn
    rw [run_vcpu, dif_pos h, hn]
  · intro v hv hcr
    rw [run_vcpu, dif_pos h, hv]
    simp [hcr]
  · intro v hv hcr
    refine ⟨{ m with current_vcpu := some vcpu_id, vcpus := Function.update m.vcpus ⟨vcpu_id, h⟩ (some { v with state := .Running }) }, ?_, rfl, rfl, ?_, ?_⟩
    · rw [run_vcpu, dif_pos h, hv]
      simp [hcr]
    · show Function.update m.vcpus ⟨vcpu_id, h⟩ (some { v with state := .Running }) ⟨vcpu_id, h⟩ = _
      simp
    · intro j hj
      show Function.update m.vcpus ⟨vcpu_id, h⟩ (some { v with state := .Running }) j = m.vcpus j
      simp [Function.update_noteq hj]

/-- C4 witness: the no-op on an empty slot, and the counterexample input
evaluated, at concrete states through the theorem itself. -/
theorem c4_run_contract_witness :
    run_vcpu VcpuManager.new 2 = some (VcpuManager.new, .notFound) :=
  (c4_run_contract VcpuManager.new 2 (by omega)).1 rfl

/-! ## C7: context save/restore round trip (`vcpu.rs`) -/

/-- The machine registers read and written by `Vcpu::save_context` and
`Vcpu::restore_context` through inline assembly: the 31 general registers,
the stack pointer, the DAIF bits (the PSTATE snapshot), and the EL2
exception-return address, saved PSTATE and guest vector base. -/
structure Machine where
  x : Fin 31 -> Nat
  sp : Nat
  daif : Nat
  elr_el2 : Nat
  spsr_el2 : Nat
  vbar_el1 : Nat

/-- Mirrors `Vcpu::save_context`: stores x0 (read first), then x1..x30,
then ELR_EL2, SP, the PSTATE snapshot (DAIF), SPSR_EL2 and VBAR_EL1 into
the context record, overwriting every field. -/
def save_context (m : Machine) : VcpuStateStruct :=
  { regs := m.x, elr_el2 := m.elr_el2, sp := m.sp,
    pstate := m.daif, spsr := m.spsr_el2, vbar_el1 := m.vbar_el1 }

/-- Mirrors `Vcpu::restore_context`: writes SP and VBAR_EL1 back to
hardware and reloads x1..x30 then x0 last from the context record.  The
EL2 exception-return registers are deliberately not written (the source
removed those writes as incorrect), and the context itself is not
mutated. -/
def restore_context (c : VcpuStateStruct) (m : Machine) : Machine :=
  { m with sp := c.sp, vbar_el1 := c.vbar_el1, x := c.regs }

/-- C7: `save_context` immediately followed by `restore_context` with no
intervening mutation restores the machine exactly: all 31 general
registers, the exception-return address, the exception-return PSTATE and
the vector base are byte-for-byte unchanged (and `restore_context` reads
but never writes the saved context, so the context is unchanged too). -/
theorem c7_save_restore_roundtrip (m : Machine) :
    restore_context (save_context m) m = m := rfl


end KernelVirt
